import Mathlib

/-!
Shallow embedding of `shape.go` from the excelize repository (shape
insertion: option resolution, drawing-anchor construction, style
references, and the orchestration that attaches a drawing part to a
worksheet).  Collaborators that live outside the given source file
(worksheet accessor, relationship registrar, drawing-document store,
pixel-geometry resolver, default-font provider, cell-reference parser
and the numeric constants) are modelled from the specification's
collaborator contracts; each such definition is marked
`Modelled from the spec:` in its doc comment.

Go semantics conventions used throughout:
* Go `int` is modelled as `Int`, Go `float64` as `Rat` (the program only
  multiplies, compares and truncates, so the rational model is exact).
* A Go pointer field used for "set vs. unset" is an `Option`.
* A Go function that mutates through a pointer argument is modelled as a
  function returning the new pointee value; in particular
  `parseShapeOptions(opts *Shape)` writes its defaults through `opts`,
  so its Lean result is at once the returned description and the state
  of the caller's description after the call.
* `strings.ToUpper` is modelled for ASCII strings (every color string in
  the development is ASCII).
-/

namespace Excelize

/-- Go `strings.ToUpper`, restricted to the ASCII mapping. -/
def goToUpper (s : String) : String :=
  ⟨s.data.map Char.toUpper⟩

/-- Character-list worker for `goReplaceAll`: scan left to right,
replacing each leftmost non-overlapping occurrence of `old`.  The fuel
argument (initialized to the subject's length, an upper bound on the
number of scan steps when `old` is non-empty) makes the recursion
structural. -/
def replaceLoop (old new : List Char) : Nat → List Char → List Char
  | _, [] => []
  | 0, l => l
  | fuel + 1, c :: rest =>
    if old.isPrefixOf (c :: rest) then
      new ++ replaceLoop old new fuel ((c :: rest).drop old.length)
    else
      c :: replaceLoop old new fuel rest

/-- Go `strings.ReplaceAll(s, old, new)`: replace every non-overlapping
occurrence, scanning left to right (the source never calls it with an
empty `old`). -/
def goReplaceAll (s old new : String) : String :=
  if old = "" then s
  else ⟨replaceLoop old.data new.data s.data.length s.data⟩

/-- Go `len(s)`: the byte length of the UTF-8 encoding. -/
def goLen (s : String) : Nat :=
  s.data.foldl (fun n c => n + c.utf8Size) 0

/-- Go `strings.TrimPrefix(s, pre)`. -/
def goTrimPfx (s pre : String) : String :=
  if pre.data.isPrefixOf s.data then ⟨s.data.drop pre.data.length⟩ else s

/-- Go `strings.TrimSuffix(s, suf)`. -/
def goTrimSfx (s suf : String) : String :=
  if suf.data.isSuffixOf s.data then
    ⟨s.data.take (s.data.length - suf.data.length)⟩
  else s

/-- Go `strconv.Atoi`, keeping only the value with `0` on error, as the
source does in `drawingID, _ = strconv.Atoi(...)` (digits only; the
source never feeds it a signed numeral). -/
def goAtoi (s : String) : Int :=
  if s.data ≠ [] ∧ s.data.all Char.isDigit then
    (s.data.foldl (fun n c => n * 10 + (c.toNat - 48)) 0 : Nat)
  else 0

/-- Truncation of a rational toward zero: Go's `int(x)` conversion from
`float64`. -/
def ratTrunc (q : Rat) : Int :=
  if 0 ≤ q then q.floor else q.ceil

/-- Error taxonomy of the core (spec §7). -/
inductive Err where
  /-- `ErrParameterInvalid`: absent shape description. -/
  | parameterInvalid : Err
  /-- unknown sheet (worksheet accessor failure). -/
  | sheetNotFound : Err
  /-- malformed cell reference text. -/
  | invalidCellRef : Err
  /-- malformed pre-existing drawing-part bytes. -/
  | parseError : Err
  /-- default-font provider failure. -/
  | fontProvider : Err
  deriving DecidableEq, Repr

/-- `ErrParameterInvalid` from the source's error vocabulary. -/
def ErrParameterInvalid : Err := Err.parameterInvalid

/-- Font override of a rich-text run (`excelize.Font`). -/
structure Font where
  bold : Bool
  italic : Bool
  underline : String
  family : String
  size : Rat
  color : String
  deriving DecidableEq, Repr

/-- One rich-text run (`excelize.RichTextRun`): text plus optional font. -/
structure RichTextRun where
  font : Option Font
  text : String
  deriving DecidableEq, Repr

/-- Format block of a shape (`excelize.GraphicOptions` as used by
`shape.go`): print/lock flags are pointers (unset = `none`). -/
structure GraphicOptions where
  printObject : Option Bool
  locked : Option Bool
  scaleX : Rat
  scaleY : Rat
  offsetX : Int
  offsetY : Int
  positioning : String
  deriving DecidableEq, Repr

/-- Line settings of a shape (`excelize.ShapeLine`); width is a pointer. -/
structure ShapeLine where
  color : String
  width : Option Rat
  deriving DecidableEq, Repr

/-- Fill settings (`excelize.Fill`): list of colors and a pattern id. -/
structure Fill where
  color : List String
  pattern : Int
  deriving DecidableEq, Repr

/-- The caller-supplied shape description (`excelize.Shape`).  The Go
field `Macro` is rendered `mcr` (its name is reserved in Lean). -/
structure Shape where
  shapeType : String
  mcr : String
  width : Int
  height : Int
  format : GraphicOptions
  line : ShapeLine
  fill : Fill
  paragraph : List RichTextRun
  deriving DecidableEq, Repr

/-- Modelled from the spec: constant `DEFAULT_SHAPE_SIZE`
(`defaultShapeSize` in the source tree, outside the given file). -/
def defaultShapeSize : Int := 160

/-- Modelled from the spec: constant `DEFAULT_SCALE` = 1.0
(`defaultPictureScale`). -/
def defaultPictureScale : Rat := 1

/-- Modelled from the spec: constant `DEFAULT_LINE_WIDTH`
(`defaultShapeLineWidth`); the exact numeric value is external to the
given file, only its presence matters to the claims. -/
def defaultShapeLineWidth : Rat := 13 / 10

/-- Modelled from the spec: `EMU_PER_PIXEL`, the pixel → drawing-unit
conversion factor (`EMU` in the source tree). -/
def EMU : Int := 9525

/-- Modelled from the spec: `EMU_PER_POINT` based stroke-width
conversion (`ptToEMUs` in the source tree): points × 12700, truncated. -/
def ptToEMUs (pt : Rat) : Int :=
  ratTrunc (12700 * pt)

/-- `parseShapeOptions` (shape.go:21-47): fill unset fields of the
description with defaults; reject an absent description.  The Go
function mutates `*opts` in place and returns the same pointer, so the
returned `Shape` here is also the caller's description after the call. -/
def parseShapeOptions (opts : Option Shape) : Except Err Shape :=
  match opts with
  | none => .error ErrParameterInvalid
  | some o =>
    let o := if o.width = 0 then { o with width := defaultShapeSize } else o
    let o := if o.height = 0 then { o with height := defaultShapeSize } else o
    let o := if o.format.printObject = none then
        { o with format.printObject := some true } else o
    let o := if o.format.locked = none then
        { o with format.locked := some false } else o
    let o := if o.format.scaleX = 0 then
        { o with format.scaleX := defaultPictureScale } else o
    let o := if o.format.scaleY = 0 then
        { o with format.scaleY := defaultPictureScale } else o
    let o := if o.line.width = none then
        { o with line.width := some defaultShapeLineWidth } else o
    .ok o

/-- A style reference (`aRef`): palette index plus either an explicit
scRGB triple or a literal sRGB hex string. -/
structure aRef where
  idx : Int
  scrgbClr : Option (Int × Int × Int)
  srgbClr : Option String
  deriving DecidableEq, Repr

/-- `setShapeRef` (shape.go:469-486): empty color → scheme reference at
index 0 with an explicit black triple; otherwise an indexed reference
carrying the color upper-cased with every `#` removed. -/
def setShapeRef (color : String) (i : Int) : aRef :=
  if color = "" then
    { idx := 0, scrgbClr := some (0, 0, 0), srgbClr := none }
  else
    { idx := i, scrgbClr := none,
      srgbClr := some (goReplaceAll (goToUpper color) "#" "") }

/-- Run properties of an emitted text run (`aRPr`): italic, bold,
underline tag, stored size (hundredths of a point), latin typeface and
the optional literal-RGB solid fill. -/
structure aRPr where
  i : Bool
  b : Bool
  lang : String
  altLang : String
  u : String
  sz : Rat
  latin : String
  solidFill : Option String
  deriving DecidableEq, Repr

/-- An emitted run (`aR`): properties plus text. -/
structure aR where
  rPr : aRPr
  t : String
  deriving DecidableEq, Repr

/-- An emitted paragraph (`aP`) with its end-paragraph language tag. -/
structure aP where
  r : aR
  endParaRPrLang : String
  deriving DecidableEq, Repr

/-- Non-visual shape properties (`xlsxCNvPr`): identity and name. -/
structure xlsxCNvPr where
  id : Nat
  name : String
  deriving DecidableEq, Repr

/-- Shape style block (`xdrStyle`): line/fill/effect references plus the
fixed font reference (`minor` theme font, scheme color `tx1`). -/
structure xdrStyle where
  lnRef : aRef
  fillRef : aRef
  effectRef : aRef
  fontRefIdx : String
  fontRefSchemeClr : String
  deriving DecidableEq, Repr

/-- Text-body frame attributes (`aBodyPr`) as set by the source. -/
structure aBodyPr where
  vertOverflow : String
  horzOverflow : String
  wrap : String
  rtlCol : Bool
  anchor : String
  deriving DecidableEq, Repr

/-- Text body (`xdrTxBody`): frame attributes and paragraphs. -/
structure xdrTxBody where
  bodyPr : aBodyPr
  p : List aP
  deriving DecidableEq, Repr

/-- The shape payload (`xdrSp`).  `spPrLn` is the optional explicit
stroke-width element (EMUs); `prst` the preset-geometry tag. -/
structure xdrSp where
  mcr : String
  cNvPr : xlsxCNvPr
  txBox : Bool
  prst : String
  spPrLn : Option Int
  style : xdrStyle
  txBody : xdrTxBody
  deriving DecidableEq, Repr

/-- One corner of a two-cell anchor (`xlsxFrom`/`xlsxTo`): cell indices
and sub-cell offsets in drawing units. -/
structure xdrCorner where
  col : Int
  colOff : Int
  row : Int
  rowOff : Int
  deriving DecidableEq, Repr

/-- A two-cell anchor (`xdrCellAnchor`) holding the shape payload and
the client-data flags. -/
structure xdrCellAnchor where
  editAs : String
  from_ : xdrCorner
  to_ : xdrCorner
  sp : xdrSp
  fLocksWithSheet : Bool
  fPrintsWithSheet : Bool
  deriving DecidableEq, Repr

/-- A parsed drawing document (`xlsxWsDr`): its ordered anchors. -/
structure xlsxWsDr where
  twoCellAnchor : List xdrCellAnchor
  deriving DecidableEq, Repr

/-- Worksheet descriptor as this core sees it: the optional drawing
relationship id (`ws.Drawing`) and whether the relationship namespace
has been declared on the sheet. -/
structure Worksheet where
  drawing : Option Nat
  nsSet : Bool
  deriving DecidableEq, Repr

/-- A relationship entry: id and target path. -/
structure Rel where
  id : Nat
  target : String
  deriving DecidableEq, Repr

deriving instance DecidableEq for Except

/-- Modelled from the spec: the shared mutable state reachable from a
`File` — worksheet descriptors, per-part relationship registries, the
drawing-document store (a part either parses to a document or its bytes
are malformed), the content-type registry of drawing part indices, and
the default-font provider's outcome.  All registries are association
lists keyed by name/path. -/
structure FileState where
  sheets : List (String × Worksheet)
  rels : List (String × List Rel)
  drawings : List (String × Except Unit xlsxWsDr)
  contentTypes : List Int
  defaultFont : Except Err String
  deriving DecidableEq, Repr

/-- Association-list lookup used by every registry in the model. -/
def alistFind {α : Type} (l : List (String × α)) (k : String) : Option α :=
  match l with
  | [] => none
  | (k', v) :: rest => if k' = k then some v else alistFind rest k

/-- Association-list upsert: replace the first binding of `k` in place,
or append a new binding. -/
def alistStore {α : Type} (l : List (String × α)) (k : String) (v : α) :
    List (String × α) :=
  match l with
  | [] => [(k, v)]
  | (k', v') :: rest =>
    if k' = k then (k, v) :: rest else (k', v') :: alistStore rest k v

/-- Modelled from the spec: the WorksheetAccessor `get(sheetName)`
(`workSheetReader` in the source tree) — the sheet's mutable descriptor,
or NotFound. -/
def workSheetReader (st : FileState) (sheet : String) :
    Except Err Worksheet :=
  match alistFind st.sheets sheet with
  | some ws => .ok ws
  | none => .error .sheetNotFound

/-- Modelled from the spec: `countDrawings` — the number of drawing
parts process-wide, used to allocate the next part index. -/
def countDrawings (st : FileState) : Int :=
  (st.drawings.length : Int)

/-- Modelled from the spec: the sheet's XML part path
(`getSheetXMLPath`); the model places every sheet under
`xl/worksheets/`. -/
def getSheetXMLPath (st : FileState) (sheet : String) : String :=
  "xl/worksheets/" ++ sheet ++ ".xml"

/-- Modelled from the spec: RelationshipRegistrar `resolveTarget`
(`getSheetRelationshipsTargetByID`): look up the sheet's relationship
file and return the target of the given id, or `""` when absent. -/
def getSheetRelationshipsTargetByID (st : FileState) (sheet : String)
    (rID : Nat) : String :=
  let relsPath := "xl/worksheets/_rels/"
    ++ goTrimPfx (getSheetXMLPath st sheet) "xl/worksheets/" ++ ".rels"
  match alistFind st.rels relsPath with
  | some entries =>
    match entries.find? (fun r => r.id = rID) with
    | some r => r.target
    | none => ""
  | none => ""

/-- Modelled from the spec: RelationshipRegistrar `add` (`addRels`):
append a relationship with the next id to the owner's registry and
return the new id together with the updated state. -/
def addRels (st : FileState) (relsPath kind target extra : String) :
    Nat × FileState :=
  let entries := (alistFind st.rels relsPath).getD []
  let rID := entries.length + 1
  (rID, { st with
    rels := alistStore st.rels relsPath (entries ++ [⟨rID, target⟩]) })

/-- Modelled from the spec: record the drawing relationship id on the
sheet descriptor (`addSheetDrawing`). -/
def addSheetDrawing (st : FileState) (sheet : String) (rID : Nat) :
    FileState :=
  match alistFind st.sheets sheet with
  | some ws =>
    { st with sheets :=
        alistStore st.sheets sheet { ws with drawing := some rID } }
  | none => st

/-- Modelled from the spec: declare the relationship namespace on the
sheet's XML (`addSheetNameSpace`). -/
def addSheetNameSpace (st : FileState) (sheet ns : String) : FileState :=
  match alistFind st.sheets sheet with
  | some ws =>
    { st with sheets := alistStore st.sheets sheet { ws with nsSet := true } }
  | none => st

/-- Modelled from the spec: DrawingDocumentStore `load`
(`drawingParser`): the parsed document at the path (empty when the part
does not exist yet) paired with the next shape identity — one more than
the number of anchors already present — or ParseError on malformed
bytes. -/
def drawingParser (st : FileState) (path : String) :
    Except Err (xlsxWsDr × Nat) :=
  match alistFind st.drawings path with
  | some (.ok doc) => .ok (doc, doc.twoCellAnchor.length + 1)
  | some (.error _) => .error .parseError
  | none => .ok (⟨[]⟩, 1)

/-- Modelled from the spec: ContentTypeRegistrar `ensure`
(`addContentTypePart`), idempotent on the part index. -/
def addContentTypePart (st : FileState) (idx : Int) : FileState :=
  if st.contentTypes.contains idx then st
  else { st with contentTypes := st.contentTypes ++ [idx] }

/-- Modelled from the spec: CellReferenceResolver `parse`
(`CellNameToCoordinates`): split an `A1`-style reference into
one-or-more column letters followed by a row number, failing with
InvalidReference on anything else. -/
def CellNameToCoordinates (cell : String) : Except Err (Int × Int) :=
  let letters := cell.data.takeWhile (fun c => 'A' ≤ c ∧ c ≤ 'Z')
  let digits := cell.data.drop letters.length
  if letters = [] then .error .invalidCellRef
  else if digits = [] then .error .invalidCellRef
  else if ¬ digits.all Char.isDigit then .error .invalidCellRef
  else
    let col := letters.foldl (fun a c => a * 26 + ((c.toNat : Int) - 64)) 0
    let row := goAtoi ⟨digits⟩
    if row = 0 then .error .invalidCellRef else .ok (col, row)

/-- Modelled from the spec: fixed column pixel width of the modelled
PixelGeometryResolver. -/
def colWidthPx : Int := 64

/-- Modelled from the spec: fixed row pixel height of the modelled
PixelGeometryResolver. -/
def rowHeightPx : Int := 20

/-- Modelled from the spec: PixelGeometryResolver `resolve`
(`positionObjectPixels`): under a fixed column width and row height, the
start corner is the anchor cell, the end corner is the cell reached by
advancing offset+extent pixels, and the residuals are the remainders. -/
def positionObjectPixels (st : FileState) (sheet : String)
    (col row x1 y1 width height : Int) :
    Int × Int × Int × Int × Int × Int :=
  let totalX := x1 + width
  let totalY := y1 + height
  (col, row,
   col + totalX / colWidthPx, row + totalY / rowHeightPx,
   totalX % colWidthPx, totalY % rowHeightPx)

/-- Modelled from the spec: DefaultFontProvider `get`
(`GetDefaultFont`): the provider's outcome, carried in the state. -/
def GetDefaultFont (st : FileState) : Except Err String :=
  st.defaultFont

/-- The supported drawing underline types, as enumerated by the source's
documentation and matched case-sensitively by `inStrSlice`. -/
def supportedDrawingUnderlineTypes : List String :=
  ["none", "words", "sng", "dbl", "heavy", "dotted", "dottedHeavy",
   "dash", "dashHeavy", "dashLong", "dashLongHeavy", "dotDash",
   "dotDashHeavy", "dotDotDash", "dotDotDashHeavy", "wavy", "wavyHeavy",
   "wavyDbl"]

/-- Modelled from the spec: the DrawingML relationship type constant
(`SourceRelationshipDrawingML`). -/
def SourceRelationshipDrawingML : String :=
  "http://schemas.openxmlformats.org/officeDocument/2006/relationships/drawing"

/-- Modelled from the spec: the relationship namespace constant
(`SourceRelationship`). -/
def SourceRelationship : String :=
  "http://schemas.openxmlformats.org/officeDocument/2006/relationships"

/-- Dereference of a Go pointer field (`*p`).  A `none` here would be a
nil-pointer fault in Go; on every path the source exercises the field
has been filled by `parseShapeOptions`, so the fallback is never
reached. -/
def deref {α : Type} (x : Option α) (dflt : α) : α :=
  x.getD dflt

/-- The zero `Font` value (`&Font{}` in Go), used when a run carries no
font override. -/
def fontZero : Font :=
  { bold := false, italic := false, underline := "", family := "",
    size := 0, color := "" }

/-- The run synthesized by `addDrawingShape` (shape.go:402-416) when the
description's paragraph list is empty: a single space in the default
font family, size 11, black, underline `none`. -/
def synthesizedRun (defaultFont : String) : RichTextRun :=
  { font := some
      { bold := false, italic := false, underline := "none",
        family := defaultFont, size := 11, color := "000000" },
    text := " " }

/-- Body of the paragraph loop of `addDrawingShape` (shape.go:417-456):
resolve the underline against the supported set (fallback `"none"`),
replace empty text by a single space, store the size in hundredths, and
emit a literal-RGB solid fill exactly when the color, upper-cased with
every `#` removed, is 6 bytes long. -/
def shapeParagraph (p : RichTextRun) : aP :=
  let font := match p.font with
    | some f => f
    | none => fontZero
  let u := if font.underline ∈ supportedDrawingUnderlineTypes then
      font.underline else "none"
  let text := if p.text = "" then " " else p.text
  let srgbClr := goReplaceAll (goToUpper font.color) "#" ""
  { r :=
      { rPr :=
          { i := font.italic, b := font.bold,
            lang := "en-US", altLang := "en-US",
            u := u, sz := font.size * 100, latin := font.family,
            solidFill :=
              if goLen srgbClr = 6 then some srgbClr else none },
        t := text },
    endParaRPrLang := "en-US" }

/-- `addDrawingShape` (shape.go:324-465): parse the anchor cell, scale
the extent, resolve the pixel geometry, load the drawing part and its
next shape identity, assemble the two-cell anchor with the shape
payload, and — as the last step of a successful call — append it and
store the document back.  Returns the error (if any) with the resulting
state. -/
def addDrawingShape (st : FileState) (sheet drawingXML cell : String)
    (opts : Shape) : Option Err × FileState :=
  match CellNameToCoordinates cell with
  | .error e => (some e, st)
  | .ok (fromCol, fromRow) =>
    let width := ratTrunc ((opts.width : Rat) * opts.format.scaleX)
    let height := ratTrunc ((opts.height : Rat) * opts.format.scaleY)
    let (colStart, rowStart, colEnd, rowEnd, x2, y2) :=
      positionObjectPixels st sheet fromCol fromRow
        opts.format.offsetX opts.format.offsetY width height
    match drawingParser st drawingXML with
    | .error e => (some e, st)
    | .ok (content, cNvPrID) =>
      match GetDefaultFont st with
      | .error e => (some e, st)
      | .ok defaultFont =>
        let solidColor := match opts.fill.color with
          | [c] => c
          | _ => ""
        let paragraphs := if opts.paragraph.length < 1 then
            [synthesizedRun defaultFont] else opts.paragraph
        let shape : xdrSp :=
          { mcr := opts.mcr,
            cNvPr := { id := cNvPrID,
                       name := "Shape " ++ toString cNvPrID },
            txBox := true,
            prst := opts.shapeType,
            spPrLn :=
              if deref opts.line.width 0 ≠ 1 then
                some (ptToEMUs (deref opts.line.width 0)) else none,
            style :=
              { lnRef := setShapeRef opts.line.color 2,
                fillRef := setShapeRef solidColor 1,
                effectRef := setShapeRef "" 0,
                fontRefIdx := "minor", fontRefSchemeClr := "tx1" },
            txBody :=
              { bodyPr :=
                  { vertOverflow := "clip", horzOverflow := "clip",
                    wrap := "none", rtlCol := false, anchor := "t" },
                p := paragraphs.map shapeParagraph } }
        let anchor : xdrCellAnchor :=
          { editAs := opts.format.positioning,
            from_ := { col := colStart, colOff := opts.format.offsetX * EMU,
                       row := rowStart, rowOff := opts.format.offsetY * EMU },
            to_ := { col := colEnd, colOff := x2 * EMU,
                     row := rowEnd, rowOff := y2 * EMU },
            sp := shape,
            fLocksWithSheet := deref opts.format.locked false,
            fPrintsWithSheet := deref opts.format.printObject false }
        let stored : Except Unit xlsxWsDr :=
          .ok { content with
                  twoCellAnchor := content.twoCellAnchor ++ [anchor] }
        (none,
         { st with drawings := alistStore st.drawings drawingXML stored })

/-- `AddShape` (shape.go:288-320): resolve the options, read the sheet,
locate or create the drawing part (creating registers a relationship,
records it on the sheet descriptor and declares the namespace), delegate
to `addDrawingShape`, and finally register the part's content type. -/
def AddShape (st : FileState) (sheet cell : String) (opts : Option Shape) :
    Option Err × FileState :=
  match parseShapeOptions opts with
  | .error e => (some e, st)
  | .ok options =>
    match workSheetReader st sheet with
    | .error e => (some e, st)
    | .ok ws =>
      let drawingID := countDrawings st + 1
      let drawingXML := "xl/drawings/drawing" ++ toString drawingID ++ ".xml"
      let sheetRelationshipsDrawingXML :=
        "../drawings/drawing" ++ toString drawingID ++ ".xml"
      let (drawingID, drawingXML, st) :=
        match ws.drawing with
        | some rID =>
          let target := getSheetRelationshipsTargetByID st sheet rID
          (goAtoi (goTrimSfx (goTrimPfx target "../drawings/drawing")
             ".xml"),
           goReplaceAll target ".." "xl", st)
        | none =>
          let sheetXMLPath := getSheetXMLPath st sheet
          let sheetRels := "xl/worksheets/_rels/"
            ++ goTrimPfx sheetXMLPath "xl/worksheets/" ++ ".rels"
          let (rID, st') := addRels st sheetRels
            SourceRelationshipDrawingML sheetRelationshipsDrawingXML ""
          let st' := addSheetDrawing st' sheet rID
          let st' := addSheetNameSpace st' sheet SourceRelationship
          (drawingID, drawingXML, st')
      match addDrawingShape st sheet drawingXML cell options with
      | (some e, st') => (some e, st')
      | (none, st') => (none, addContentTypePart st' drawingID)

/-! ## Concrete sample data (used by counterexamples and witnesses) -/

/-- A shape description with every defaultable field unset. -/
def sampleShape : Shape :=
  { shapeType := "rect", mcr := "", width := 0, height := 0,
    format := { printObject := none, locked := none, scaleX := 0,
                scaleY := 0, offsetX := 0, offsetY := 0, positioning := "" },
    line := { color := "", width := none },
    fill := { color := [], pattern := 1 }, paragraph := [] }

/-- The resolution of `sampleShape`: every default filled in. -/
def sampleResolved : Shape :=
  { shapeType := "rect", mcr := "", width := 160, height := 160,
    format := { printObject := some true, locked := some false, scaleX := 1,
                scaleY := 1, offsetX := 0, offsetY := 0, positioning := "" },
    line := { color := "", width := some (13 / 10) },
    fill := { color := [], pattern := 1 }, paragraph := [] }

/-- A file state whose only sheet already references drawing part 1,
which exists, parses, and is empty. -/
def sampleStateB : FileState :=
  { sheets := [("Sheet1", { drawing := some 1, nsSet := true })],
    rels := [("xl/worksheets/_rels/Sheet1.xml.rels",
              [{ id := 1, target := "../drawings/drawing1.xml" }])],
    drawings := [("xl/drawings/drawing1.xml", .ok ⟨[]⟩)],
    contentTypes := [1],
    defaultFont := .ok "Calibri" }

/-- A file state whose only sheet has no drawing part yet. -/
def sampleStateA : FileState :=
  { sheets := [("Sheet1", { drawing := none, nsSet := false })],
    rels := [], drawings := [], contentTypes := [],
    defaultFont := .ok "Calibri" }

/-! ## Helper lemmas -/

/-- Closed form of `parseShapeOptions` on a present description: the
sequential in-place defaulting equals a single per-field update. -/
theorem parseShapeOptions_some_eq (s : Shape) :
    parseShapeOptions (some s) = .ok
      { s with
        width := if s.width = 0 then defaultShapeSize else s.width,
        height := if s.height = 0 then defaultShapeSize else s.height,
        format := { s.format with
          printObject := if s.format.printObject = none then some true
            else s.format.printObject,
          locked := if s.format.locked = none then some false
            else s.format.locked,
          scaleX := if s.format.scaleX = 0 then defaultPictureScale
            else s.format.scaleX,
          scaleY := if s.format.scaleY = 0 then defaultPictureScale
            else s.format.scaleY },
        line := { s.line with
          width := if s.line.width = none then some defaultShapeLineWidth
            else s.line.width } } := by
  obtain ⟨ty, mc, w, h, ⟨po, lk, sx, sy, ox, oy, pos⟩, ⟨lc, lw⟩, fl, pr⟩ := s
  simp only [parseShapeOptions]
  by_cases h1 : w = 0 <;> by_cases h2 : h = 0 <;>
    by_cases h3 : po = none <;> by_cases h4 : lk = none <;>
    by_cases h5 : sx = 0 <;> by_cases h6 : sy = 0 <;>
    by_cases h7 : lw = none <;>
    simp [h1, h2, h3, h4, h5, h6, h7]

/-- The two-cell anchor built by a successful `addDrawingShape` call, as
an explicit record: used to state the success-path equation of
`addDrawingShape` in closed form. -/
def builtAnchor (st : FileState) (sheet : String) (o : Shape)
    (fromCol fromRow : Int) (id : Nat) (fam : String) : xdrCellAnchor :=
  let width := ratTrunc ((o.width : Rat) * o.format.scaleX)
  let height := ratTrunc ((o.height : Rat) * o.format.scaleY)
  let (colStart, rowStart, colEnd, rowEnd, x2, y2) :=
    positionObjectPixels st sheet fromCol fromRow
      o.format.offsetX o.format.offsetY width height
  let solidColor := match o.fill.color with
    | [c] => c
    | _ => ""
  let paragraphs := if o.paragraph.length < 1 then
      [synthesizedRun fam] else o.paragraph
  { editAs := o.format.positioning,
    from_ := { col := colStart, colOff := o.format.offsetX * EMU,
               row := rowStart, rowOff := o.format.offsetY * EMU },
    to_ := { col := colEnd, colOff := x2 * EMU,
             row := rowEnd, rowOff := y2 * EMU },
    sp :=
      { mcr := o.mcr,
        cNvPr := { id := id, name := "Shape " ++ toString id },
        txBox := true,
        prst := o.shapeType,
        spPrLn :=
          if deref o.line.width 0 ≠ 1 then
            some (ptToEMUs (deref o.line.width 0)) else none,
        style :=
          { lnRef := setShapeRef o.line.color 2,
            fillRef := setShapeRef solidColor 1,
            effectRef := setShapeRef "" 0,
            fontRefIdx := "minor", fontRefSchemeClr := "tx1" },
        txBody :=
          { bodyPr :=
              { vertOverflow := "clip", horzOverflow := "clip",
                wrap := "none", rtlCol := false, anchor := "t" },
            p := paragraphs.map shapeParagraph } },
    fLocksWithSheet := deref o.format.locked false,
    fPrintsWithSheet := deref o.format.printObject false }

/-- Success-path equation of `addDrawingShape`: when the cell parses,
the part at `xml` holds a parseable document and the default-font
provider succeeds, the call returns no error and its only state change
is storing back the document with the built anchor appended, whose
shape identity is one more than the number of anchors already present. -/
theorem addDrawingShape_ok (st : FileState) (sheet xml cell : String)
    (o : Shape) (fromCol fromRow : Int) (doc : xlsxWsDr) (fam : String)
    (hc : CellNameToCoordinates cell = .ok (fromCol, fromRow))
    (hd : drawingParser st xml = .ok (doc, doc.twoCellAnchor.length + 1))
    (hf : st.defaultFont = .ok fam) :
    addDrawingShape st sheet xml cell o =
      (none,
       { st with
         drawings :=
           alistStore st.drawings xml
             (.ok ⟨doc.twoCellAnchor ++
               [builtAnchor st sheet o fromCol fromRow
                  (doc.twoCellAnchor.length + 1) fam]⟩) }) := by
  simp only [addDrawingShape, hc, hd, GetDefaultFont, hf, builtAnchor]

theorem alistFind_store_self {α : Type} (l : List (String × α))
    (k : String) (v : α) : alistFind (alistStore l k v) k = some v := by
  induction l with
  | nil => simp [alistStore, alistFind]
  | cons hd tl ih =>
    obtain ⟨k', v'⟩ := hd
    by_cases h : k' = k <;> simp [alistStore, alistFind, h, ih]

theorem alistFind_store_ne {α : Type} (l : List (String × α))
    (k p : String) (v : α) (h : p ≠ k) :
    alistFind (alistStore l k v) p = alistFind l p := by
  have h' : ¬ k = p := fun hh => h hh.symm
  induction l with
  | nil => simp [alistStore, alistFind, h']
  | cons hd tl ih =>
    obtain ⟨k', v'⟩ := hd
    by_cases hk : k' = k
    · subst hk
      simp [alistStore, alistFind, h']
    · simp [alistStore, alistFind, hk, ih]

theorem alistStore_length_mem {α : Type} (l : List (String × α))
    (k : String) (v : α) (h : (alistFind l k).isSome) :
    (alistStore l k v).length = l.length := by
  induction l with
  | nil => simp [alistFind] at h
  | cons hd tl ih =>
    obtain ⟨k', v'⟩ := hd
    by_cases hk : k' = k
    · simp [alistStore, hk]
    · simp only [alistFind, hk, if_false] at h
      simp [alistStore, hk, ih h]

theorem alistStore_length_new {α : Type} (l : List (String × α))
    (k : String) (v : α) (h : alistFind l k = none) :
    (alistStore l k v).length = l.length + 1 := by
  induction l with
  | nil => simp [alistStore]
  | cons hd tl ih =>
    obtain ⟨k', v'⟩ := hd
    by_cases hk : k' = k
    · simp [alistFind, hk] at h
    · simp only [alistFind, hk, if_false] at h
      simp [alistStore, hk, ih h]

/-- Truncation of an integral rational is the integer itself. -/
theorem ratTrunc_intCast (n : Int) : ratTrunc ((n : Int) : Rat) = n := by
  have hf : ((n : Rat)).floor = n := by
    unfold Rat.floor
    simp
  have hc : ((n : Rat)).ceil = n := by
    unfold Rat.ceil
    simp
  unfold ratTrunc
  split <;> simp [hf, hc]

/-- `addContentTypePart` touches only the content-type registry. -/
theorem addContentTypePart_frame (st : FileState) (i : Int) :
    (addContentTypePart st i).drawings = st.drawings ∧
    (addContentTypePart st i).sheets = st.sheets ∧
    (addContentTypePart st i).rels = st.rels ∧
    (addContentTypePart st i).defaultFont = st.defaultFont := by
  unfold addContentTypePart
  split <;> exact ⟨rfl, rfl, rfl, rfl⟩

/-- `addSheetDrawing` touches only the worksheet registry. -/
theorem addSheetDrawing_frame (st : FileState) (s : String) (r : Nat) :
    (addSheetDrawing st s r).drawings = st.drawings ∧
    (addSheetDrawing st s r).rels = st.rels ∧
    (addSheetDrawing st s r).contentTypes = st.contentTypes ∧
    (addSheetDrawing st s r).defaultFont = st.defaultFont := by
  unfold addSheetDrawing
  split <;> exact ⟨rfl, rfl, rfl, rfl⟩

/-- `addSheetNameSpace` touches only the worksheet registry. -/
theorem addSheetNameSpace_frame (st : FileState) (s ns : String) :
    (addSheetNameSpace st s ns).drawings = st.drawings ∧
    (addSheetNameSpace st s ns).rels = st.rels ∧
    (addSheetNameSpace st s ns).contentTypes = st.contentTypes ∧
    (addSheetNameSpace st s ns).defaultFont = st.defaultFont := by
  unfold addSheetNameSpace
  split <;> exact ⟨rfl, rfl, rfl, rfl⟩

/-- The sheet-relationship resolution depends only on the relationship
registry. -/
theorem getSheetRelationshipsTargetByID_congr (st st' : FileState)
    (sheet : String) (rID : Nat) (h : st'.rels = st.rels) :
    getSheetRelationshipsTargetByID st' sheet rID =
      getSheetRelationshipsTargetByID st sheet rID := by
  unfold getSheetRelationshipsTargetByID getSheetXMLPath
  rw [h]

/-- A failing `addDrawingShape` call leaves the state untouched. -/
theorem addDrawingShape_err_state (st : FileState)
    (sheet xml cell : String) (o : Shape) :
    (addDrawingShape st sheet xml cell o).1.isSome →
    (addDrawingShape st sheet xml cell o).2 = st := by
  unfold addDrawingShape
  cases hc : CellNameToCoordinates cell with
  | error e => intro; rfl
  | ok v =>
    obtain ⟨c, r⟩ := v
    dsimp only
    cases hd : drawingParser st xml with
    | error e => intro; rfl
    | ok v =>
      obtain ⟨doc, n⟩ := v
      dsimp only
      cases hf : GetDefaultFont st with
      | error e => intro; rfl
      | ok fam => intro h; simp at h

/-- Evaluation of `AddShape` when the sheet already references a
drawing part. -/
theorem AddShape_existing (st : FileState) (sheet cell : String)
    (opts : Option Shape) (o : Shape) (ws : Worksheet) (rID : Nat)
    (ho : parseShapeOptions opts = .ok o)
    (hws : alistFind st.sheets sheet = some ws)
    (hdr : ws.drawing = some rID) :
    AddShape st sheet cell opts =
      (let target := getSheetRelationshipsTargetByID st sheet rID
       let xml := goReplaceAll target ".." "xl"
       let did := goAtoi (goTrimSfx (goTrimPfx target "../drawings/drawing")
         ".xml")
       match addDrawingShape st sheet xml cell o with
       | (some e, stx) => (some e, stx)
       | (none, stx) => (none, addContentTypePart stx did)) := by
  simp only [AddShape, ho, workSheetReader, hws, hdr]

/-- Evaluation of `AddShape` when the sheet references no drawing part
yet: the relationship, sheet-descriptor and namespace mutations happen
before the builder runs. -/
theorem AddShape_fresh (st : FileState) (sheet cell : String)
    (opts : Option Shape) (o : Shape) (ws : Worksheet)
    (ho : parseShapeOptions opts = .ok o)
    (hws : alistFind st.sheets sheet = some ws)
    (hdr : ws.drawing = none) :
    AddShape st sheet cell opts =
      (let drawingID := countDrawings st + 1
       let drawingXML := "xl/drawings/drawing" ++ toString drawingID
         ++ ".xml"
       let target := "../drawings/drawing" ++ toString drawingID ++ ".xml"
       let relsPath := "xl/worksheets/_rels/"
         ++ goTrimPfx (getSheetXMLPath st sheet) "xl/worksheets/" ++ ".rels"
       let pr := addRels st relsPath SourceRelationshipDrawingML target ""
       let stM := addSheetNameSpace (addSheetDrawing pr.2 sheet pr.1) sheet
         SourceRelationship
       match addDrawingShape stM sheet drawingXML cell o with
       | (some e, stx) => (some e, stx)
       | (none, stx) => (none, addContentTypePart stx drawingID)) := by
  simp only [AddShape, ho, workSheetReader, hws, hdr]

/-- The worksheet accessor succeeds exactly on registered sheets. -/
theorem workSheetReader_ok_iff (st : FileState) (sheet : String)
    (ws : Worksheet) :
    workSheetReader st sheet = .ok ws ↔
      alistFind st.sheets sheet = some ws := by
  unfold workSheetReader
  cases alistFind st.sheets sheet <;> simp

/-- The built anchor carries the shape identity it is given. -/
theorem builtAnchor_id (st : FileState) (sheet : String) (o : Shape)
    (c r : Int) (id : Nat) (fam : String) :
    (builtAnchor st sheet o c r id fam).sp.cNvPr.id = id := rfl

/-! ## Claims -/

/-- C2.  `parseShapeOptions` returns the InvalidArgument error exactly
when its input is absent; otherwise it succeeds, and in the result
width/height equal `defaultShapeSize` when the input was 0 and the input
value otherwise, the scales equal `defaultPictureScale` (1.0) when 0 and
the input value otherwise, print-with-sheet defaults to true and locked
to false when unset, line width defaults to `defaultShapeLineWidth` when
unset, and every already-set field is returned unchanged. -/
theorem parseShapeOptions_defaulting :
    parseShapeOptions none = .error ErrParameterInvalid ∧
    ∀ s : Shape, ∃ r : Shape, parseShapeOptions (some s) = .ok r ∧
      r.width = (if s.width = 0 then defaultShapeSize else s.width) ∧
      r.height = (if s.height = 0 then defaultShapeSize else s.height) ∧
      r.format.scaleX =
        (if s.format.scaleX = 0 then defaultPictureScale
         else s.format.scaleX) ∧
      r.format.scaleY =
        (if s.format.scaleY = 0 then defaultPictureScale
         else s.format.scaleY) ∧
      r.format.printObject =
        (if s.format.printObject = none then some true
         else s.format.printObject) ∧
      r.format.locked =
        (if s.format.locked = none then some false else s.format.locked) ∧
      r.line.width =
        (if s.line.width = none then some defaultShapeLineWidth
         else s.line.width) ∧
      r.shapeType = s.shapeType ∧ r.mcr = s.mcr ∧
      r.fill = s.fill ∧ r.paragraph = s.paragraph ∧
      r.line.color = s.line.color ∧
      r.format.offsetX = s.format.offsetX ∧
      r.format.offsetY = s.format.offsetY ∧
      r.format.positioning = s.format.positioning := by
  refine ⟨rfl, fun s => ⟨_, parseShapeOptions_some_eq s, rfl, rfl, rfl, rfl,
    rfl, rfl, rfl, rfl, rfl, rfl, rfl, rfl, rfl, rfl, rfl⟩⟩

/-- C9, counterexample.  The claim says the options resolver leaves the
caller's shape description unmodified.  In the source the resolver
writes through the `*Shape` pointer it is handed (`opts.Width = ...`),
so after the call the caller's description — the payload of the returned
value in this embedding — differs from the input: on `sampleShape`
(width 0) the stored width has become 160. -/
theorem parseShapeOptions_mutates_counterexample :
    parseShapeOptions (some sampleShape) ≠ .ok sampleShape := by
  decide

/-- C9, amended.  `parseShapeOptions` is a pure value-level function of
its input — it touches no state besides the description it is handed
(none appears in its signature) — but it does not leave the caller's
description unmodified: it writes the resolved defaults back in place,
so after a successful call the caller's description equals the returned
one: the input with the seven defaultable fields resolved and every
other field unchanged. -/
theorem parseShapeOptions_pure_inplace :
    ∀ s : Shape, parseShapeOptions (some s) = .ok
      { s with
        width := if s.width = 0 then defaultShapeSize else s.width,
        height := if s.height = 0 then defaultShapeSize else s.height,
        format := { s.format with
          printObject := if s.format.printObject = none then some true
            else s.format.printObject,
          locked := if s.format.locked = none then some false
            else s.format.locked,
          scaleX := if s.format.scaleX = 0 then defaultPictureScale
            else s.format.scaleX,
          scaleY := if s.format.scaleY = 0 then defaultPictureScale
            else s.format.scaleY },
        line := { s.line with
          width := if s.line.width = none then some defaultShapeLineWidth
            else s.line.width } } :=
  fun s => parseShapeOptions_some_eq s

/-- C10.  Whenever `parseShapeOptions` succeeds, the resolved
description's line-width, locked and print-with-sheet pointer fields are
all set, so the dereferences `*opts.Line.Width`, `*opts.Format.Locked`
and `*opts.Format.PrintObject` performed later by `addDrawingShape`
cannot fault. -/
theorem parseShapeOptions_pointers_set (o : Option Shape) (r : Shape)
    (h : parseShapeOptions o = .ok r) :
    r.line.width.isSome ∧ r.format.locked.isSome ∧
      r.format.printObject.isSome := by
  match o with
  | none => exact absurd h (by simp [parseShapeOptions, ErrParameterInvalid])
  | some s =>
    rw [parseShapeOptions_some_eq s] at h
    injection h with h
    subst h
    refine ⟨?_, ?_, ?_⟩ <;> dsimp only [] <;> split <;>
      simp_all [Option.isSome_iff_ne_none]

/-- C10, witness at `sampleShape`. -/
theorem parseShapeOptions_pointers_set_witness :
    sampleResolved.line.width.isSome ∧
      sampleResolved.format.locked.isSome ∧
      sampleResolved.format.printObject.isSome :=
  parseShapeOptions_pointers_set (some sampleShape) sampleResolved
    (by rw [parseShapeOptions_some_eq sampleShape]; rfl)

/-- C7.  `setShapeRef` maps the empty color to a scheme reference at
index 0 carrying the explicit black triple, and every non-empty color to
an indexed reference at the given palette index carrying the color with
all `#` characters stripped and letters upper-cased — with no length or
character-set validation (the identity holds for every non-empty
string). -/
theorem setShapeRef_cases :
    (∀ i : Int, setShapeRef "" i =
      { idx := 0, scrgbClr := some (0, 0, 0), srgbClr := none }) ∧
    ∀ (c : String) (i : Int), c ≠ "" → setShapeRef c i =
      { idx := i, scrgbClr := none,
        srgbClr := some (goReplaceAll (goToUpper c) "#" "") } := by
  constructor
  · intro i; rfl
  · intro c i hc
    simp [setShapeRef, hc]

/-- C7, witness: a non-empty, `#`-prefixed, lower-case color. -/
theorem setShapeRef_cases_witness :
    setShapeRef "#4286f4" 2 =
      { idx := 2, scrgbClr := none, srgbClr := some "4286F4" } := by
  rw [setShapeRef_cases.2 "#4286f4" 2 (by decide)]
  decide

/-- C4, counterexample.  The claim says a run's solid-fill element is
emitted only when the normalized color is exactly 6 *hexadecimal*
characters.  The source checks only the byte length after removing every
`#` and upper-casing: the non-hexadecimal color `"GGGGGG"` also gets a
fill element. -/
theorem run_solidFill_counterexample :
    (shapeParagraph
        { font := some { fontZero with color := "GGGGGG" },
          text := "x" }).r.rPr.solidFill = some "GGGGGG" := by
  decide

/-- C4, amended.  A literal-RGB solid fill is emitted on a run exactly
when the font color, after removing every `#` character and
upper-casing, is exactly 6 bytes long — no hexadecimal-character
validation is performed, and the fill then carries that normalized
string.  In particular `"12AB"` yields no fill and `"#12AB34"` yields
fill `"12AB34"`. -/
theorem run_solidFill_length_rule :
    (∀ p : RichTextRun,
      (shapeParagraph p).r.rPr.solidFill =
        (let c := goReplaceAll
            (goToUpper (match p.font with | some f => f | none => fontZero).color)
            "#" ""
         if goLen c = 6 then some c else none)) ∧
    (shapeParagraph
        { font := some { fontZero with color := "12AB" },
          text := "x" }).r.rPr.solidFill = none ∧
    (shapeParagraph
        { font := some { fontZero with color := "#12AB34" },
          text := "x" }).r.rPr.solidFill = some "12AB34" := by
  refine ⟨fun p => rfl, by decide, by decide⟩

/-- C6.  On the successful path, the effective pixel extent handed to
the pixel-geometry resolver is the truncation of width × scale-X and
height × scale-Y, and the emitted two-cell anchor takes its start-corner
offsets from offset-X/Y × `EMU`, its end-corner offsets from the
resolver's residuals × `EMU`, and its positioning mode from the
description (corner fields, in order: column, column offset, row, row
offset). -/
theorem anchor_geometry (st : FileState) (sheet xml cell : String)
    (o : Shape)
    (fromCol fromRow colStart rowStart colEnd rowEnd x2 y2 : Int)
    (doc : xlsxWsDr) (fam : String)
    (hc : CellNameToCoordinates cell = .ok (fromCol, fromRow))
    (hd : drawingParser st xml = .ok (doc, doc.twoCellAnchor.length + 1))
    (hf : st.defaultFont = .ok fam)
    (hp : positionObjectPixels st sheet fromCol fromRow
        o.format.offsetX o.format.offsetY
        (ratTrunc ((o.width : Rat) * o.format.scaleX))
        (ratTrunc ((o.height : Rat) * o.format.scaleY)) =
      (colStart, rowStart, colEnd, rowEnd, x2, y2)) :
    ∃ a : xdrCellAnchor,
      addDrawingShape st sheet xml cell o =
        (none,
         { st with
           drawings := alistStore st.drawings xml
             (.ok ⟨doc.twoCellAnchor ++ [a]⟩) }) ∧
      a.editAs = o.format.positioning ∧
      a.from_ = ⟨colStart, o.format.offsetX * EMU,
                 rowStart, o.format.offsetY * EMU⟩ ∧
      a.to_ = ⟨colEnd, x2 * EMU, rowEnd, y2 * EMU⟩ := by
  refine ⟨_, addDrawingShape_ok st sheet xml cell o fromCol fromRow doc fam
    hc hd hf, ?_, ?_, ?_⟩ <;> simp only [builtAnchor, hp]

/-- C6, witness: `sampleStateB`, cell `G6`, the fully resolved sample
description (160 × 160 px, unit scales, zero offsets). -/
theorem anchor_geometry_witness :
    ∃ a : xdrCellAnchor,
      addDrawingShape sampleStateB "Sheet1" "xl/drawings/drawing1.xml"
          "G6" sampleResolved =
        (none,
         { sampleStateB with
           drawings := alistStore sampleStateB.drawings
             "xl/drawings/drawing1.xml"
             (.ok ⟨(⟨[]⟩ : xlsxWsDr).twoCellAnchor ++ [a]⟩) }) ∧
      a.editAs = sampleResolved.format.positioning ∧
      a.from_ = ⟨7, sampleResolved.format.offsetX * EMU,
                 6, sampleResolved.format.offsetY * EMU⟩ ∧
      a.to_ = ⟨9, 32 * EMU, 14, 0 * EMU⟩ :=
  anchor_geometry sampleStateB "Sheet1" "xl/drawings/drawing1.xml" "G6"
    sampleResolved 7 6 7 6 9 14 32 0 ⟨[]⟩ "Calibri"
    (by decide) (by decide) rfl
    (by simp [positionObjectPixels, sampleResolved, colWidthPx, rowHeightPx,
          ratTrunc_intCast]
        decide)

/-- C8.  In the emitted shape payload an explicit stroke-width element
is present exactly when the resolved line width differs from 1, and the
fill style reference is computed at palette index 1 from the single
entry of the fill color list when that list has exactly one entry and
from the empty color otherwise. -/
theorem stroke_and_fill_reference (st : FileState)
    (sheet xml cell : String) (o : Shape) (fromCol fromRow : Int)
    (doc : xlsxWsDr) (fam : String) (w : Rat)
    (hw : o.line.width = some w)
    (hc : CellNameToCoordinates cell = .ok (fromCol, fromRow))
    (hd : drawingParser st xml = .ok (doc, doc.twoCellAnchor.length + 1))
    (hf : st.defaultFont = .ok fam) :
    ∃ a : xdrCellAnchor,
      addDrawingShape st sheet xml cell o =
        (none,
         { st with
           drawings := alistStore st.drawings xml
             (.ok ⟨doc.twoCellAnchor ++ [a]⟩) }) ∧
      (a.sp.spPrLn ≠ none ↔ w ≠ 1) ∧
      a.sp.style.fillRef =
        setShapeRef
          (if o.fill.color.length = 1 then o.fill.color.headD "" else "")
          1 := by
  refine ⟨_, addDrawingShape_ok st sheet xml cell o fromCol fromRow doc fam
    hc hd hf, ?_, ?_⟩
  · simp only [builtAnchor, deref, hw, Option.getD]
    by_cases h1 : w = 1 <;> simp [h1]
  · simp only [builtAnchor]
    rcases o.fill.color with _ | ⟨c, _ | ⟨d, t⟩⟩ <;> simp

/-- C8, witness: the resolved sample description (line width 13/10 ≠ 1,
empty fill color list). -/
theorem stroke_and_fill_reference_witness :
    ∃ a : xdrCellAnchor,
      addDrawingShape sampleStateB "Sheet1" "xl/drawings/drawing1.xml"
          "G6" sampleResolved =
        (none,
         { sampleStateB with
           drawings := alistStore sampleStateB.drawings
             "xl/drawings/drawing1.xml"
             (.ok ⟨(⟨[]⟩ : xlsxWsDr).twoCellAnchor ++ [a]⟩) }) ∧
      a.sp.spPrLn ≠ none ∧
      a.sp.style.fillRef =
        setShapeRef
          (if sampleResolved.fill.color.length = 1 then
            sampleResolved.fill.color.headD "" else "")
          1 := by
  obtain ⟨a, h1, h2, h3⟩ := stroke_and_fill_reference sampleStateB "Sheet1"
    "xl/drawings/drawing1.xml" "G6" sampleResolved 7 6 ⟨[]⟩ "Calibri"
    (13 / 10) rfl (by decide) (by decide) rfl
  exact ⟨a, h1, h2.mpr (by norm_num), h3⟩

/-- C5.  Text-run construction: an empty paragraph list synthesizes
exactly one run — text a single space, underline `none`, stored size
1100, black solid fill, the default-font provider's family; a non-empty
list is mapped run by run; and for every run an unsupported or absent
underline resolves to `none`, empty text becomes a single space, and the
stored size is 100 times the requested point size. -/
theorem text_run_construction (st : FileState) (sheet xml cell : String)
    (o : Shape) (fromCol fromRow : Int) (doc : xlsxWsDr) (fam : String)
    (hc : CellNameToCoordinates cell = .ok (fromCol, fromRow))
    (hd : drawingParser st xml = .ok (doc, doc.twoCellAnchor.length + 1))
    (hf : st.defaultFont = .ok fam) :
    ∃ a : xdrCellAnchor,
      addDrawingShape st sheet xml cell o =
        (none,
         { st with
           drawings := alistStore st.drawings xml
             (.ok ⟨doc.twoCellAnchor ++ [a]⟩) }) ∧
      (o.paragraph = [] → a.sp.txBody.p =
        [{ r := { rPr := { i := false, b := false, lang := "en-US",
                           altLang := "en-US", u := "none", sz := 1100,
                           latin := fam, solidFill := some "000000" },
                  t := " " },
           endParaRPrLang := "en-US" }]) ∧
      (o.paragraph ≠ [] → a.sp.txBody.p = o.paragraph.map shapeParagraph) ∧
      (∀ p : RichTextRun,
        (match p.font with | some f => f | none => fontZero).underline ∉
            supportedDrawingUnderlineTypes →
          (shapeParagraph p).r.rPr.u = "none") ∧
      (∀ p : RichTextRun, p.text = "" → (shapeParagraph p).r.t = " ") ∧
      (∀ p : RichTextRun, (shapeParagraph p).r.rPr.sz =
        (match p.font with | some f => f | none => fontZero).size * 100) := by
  refine ⟨_, addDrawingShape_ok st sheet xml cell o fromCol fromRow doc fam
    hc hd hf, ?_, ?_, ?_, ?_, ?_⟩
  · intro hp0
    simp only [builtAnchor, hp0]
    simp [shapeParagraph, synthesizedRun]
    exact ⟨by norm_num, by decide, by decide⟩
  · intro hpne
    simp [builtAnchor, Nat.lt_one_iff, List.length_eq_zero, hpne]
  · intro p hpu
    simp [shapeParagraph, hpu]
  · intro p ht
    simp [shapeParagraph, ht]
  · intro p
    simp [shapeParagraph]

/-- C5, witness: the resolved sample description has an empty paragraph
list, so the single synthesized run with the provider's family
(`"Calibri"`) appears in the stored anchor. -/
theorem text_run_construction_witness :
    ∃ a : xdrCellAnchor,
      addDrawingShape sampleStateB "Sheet1" "xl/drawings/drawing1.xml"
          "G6" sampleResolved =
        (none,
         { sampleStateB with
           drawings := alistStore sampleStateB.drawings
             "xl/drawings/drawing1.xml"
             (.ok ⟨(⟨[]⟩ : xlsxWsDr).twoCellAnchor ++ [a]⟩) }) ∧
      a.sp.txBody.p =
        [{ r := { rPr := { i := false, b := false, lang := "en-US",
                           altLang := "en-US", u := "none", sz := 1100,
                           latin := "Calibri", solidFill := some "000000" },
                  t := " " },
           endParaRPrLang := "en-US" }] := by
  obtain ⟨a, h1, h2, h3, h4, h5, h6⟩ := text_run_construction sampleStateB
    "Sheet1" "xl/drawings/drawing1.xml" "G6" sampleResolved 7 6 ⟨[]⟩
    "Calibri" (by decide) (by decide) rfl
  exact ⟨a, h1, h2 rfl⟩

/-- After locating or creating the drawing part, `AddShape` delegates
to the builder and registers the content type on success: when the
delegation fails, the drawing store and content-type registry keep the
values they had before the whole call. -/
theorem addShape_commit_frame (st stM : FileState)
    (sheet xml cell : String) (o : Shape) (did : Int)
    (hMd : stM.drawings = st.drawings)
    (hMc : stM.contentTypes = st.contentTypes)
    (h : (match addDrawingShape stM sheet xml cell o with
          | (some e, stx) => (some e, stx)
          | (none, stx) => (none, addContentTypePart stx did)).1.isSome) :
    (match addDrawingShape stM sheet xml cell o with
     | (some e, stx) => (some e, stx)
     | (none, stx) => (none, addContentTypePart stx did)).2.drawings
        = st.drawings ∧
    (match addDrawingShape stM sheet xml cell o with
     | (some e, stx) => (some e, stx)
     | (none, stx) => (none, addContentTypePart stx did)).2.contentTypes
        = st.contentTypes := by
  cases hads : addDrawingShape stM sheet xml cell o with
  | mk res stx =>
    rw [hads] at h
    cases res with
    | none => simp at h
    | some e =>
      have hstx : stx = stM := by
        have h2 := addDrawingShape_err_state stM sheet xml cell o
          (by rw [hads]; rfl)
        rw [hads] at h2
        exact h2
      subst hstx
      simp [hMd, hMc]

/-- `addSheetDrawing` records the relationship id on the sheet,
leaving the rest of the descriptor intact. -/
theorem addSheetDrawing_find (st : FileState) (sheet : String) (r : Nat)
    (ws : Worksheet) (h : alistFind st.sheets sheet = some ws) :
    alistFind (addSheetDrawing st sheet r).sheets sheet =
      some { ws with drawing := some r } := by
  unfold addSheetDrawing
  rw [h]
  exact alistFind_store_self st.sheets sheet { ws with drawing := some r }

/-- `addSheetNameSpace` flags the namespace on the sheet descriptor. -/
theorem addSheetNameSpace_find (st : FileState) (sheet ns : String)
    (ws : Worksheet) (h : alistFind st.sheets sheet = some ws) :
    alistFind (addSheetNameSpace st sheet ns).sheets sheet =
      some { ws with nsSet := true } := by
  unfold addSheetNameSpace
  rw [h]
  exact alistFind_store_self st.sheets sheet { ws with nsSet := true }

/-- C1, case of a sheet that already references a drawing part holding
`k` anchors: two calls append two anchors to that same part, with
identities `k+1` and `k+2`, creating no new part and touching no other
part. -/
theorem addShape_twice_existing (st : FileState) (sheet cell : String)
    (s : Shape) (ws : Worksheet) (rID : Nat) (doc : xlsxWsDr)
    (fromCol fromRow : Int) (fam : String)
    (hws : alistFind st.sheets sheet = some ws)
    (hdw : ws.drawing = some rID)
    (hdoc : alistFind st.drawings
        (goReplaceAll (getSheetRelationshipsTargetByID st sheet rID)
          ".." "xl") = some (.ok doc))
    (hc : CellNameToCoordinates cell = .ok (fromCol, fromRow))
    (hf : st.defaultFont = .ok fam) :
    (AddShape st sheet cell (some s)).1 = none ∧
    (AddShape (AddShape st sheet cell (some s)).2 sheet cell
        (some s)).1 = none ∧
    ∃ a1 a2 : xdrCellAnchor,
      alistFind (AddShape (AddShape st sheet cell (some s)).2 sheet cell
            (some s)).2.drawings
          (goReplaceAll (getSheetRelationshipsTargetByID st sheet rID)
            ".." "xl")
        = some (.ok ⟨doc.twoCellAnchor ++ [a1, a2]⟩) ∧
      a1.sp.cNvPr.id = doc.twoCellAnchor.length + 1 ∧
      a2.sp.cNvPr.id = doc.twoCellAnchor.length + 2 ∧
      (AddShape (AddShape st sheet cell (some s)).2 sheet cell
          (some s)).2.drawings.length = st.drawings.length ∧
      ∀ p : String,
        p ≠ goReplaceAll (getSheetRelationshipsTargetByID st sheet rID)
            ".." "xl" →
        alistFind (AddShape (AddShape st sheet cell (some s)).2 sheet cell
            (some s)).2.drawings p = alistFind st.drawings p := by
  obtain ⟨o, ho⟩ : ∃ o, parseShapeOptions (some s) = .ok o :=
    ⟨_, parseShapeOptions_some_eq s⟩
  have hd1 : drawingParser st
      (goReplaceAll (getSheetRelationshipsTargetByID st sheet rID)
        ".." "xl") = .ok (doc, doc.twoCellAnchor.length + 1) := by
    unfold drawingParser
    rw [hdoc]
  have hb1 := addDrawingShape_ok st sheet
    (goReplaceAll (getSheetRelationshipsTargetByID st sheet rID) ".." "xl")
    cell o fromCol fromRow doc fam hc hd1 hf
  have e1 := AddShape_existing st sheet cell (some s) o ws rID ho hws hdw
  dsimp only at e1
  rw [hb1] at e1
  dsimp only at e1
  have h1d : (AddShape st sheet cell (some s)).2.drawings =
      alistStore st.drawings
        (goReplaceAll (getSheetRelationshipsTargetByID st sheet rID)
          ".." "xl")
        (.ok ⟨doc.twoCellAnchor ++
          [builtAnchor st sheet o fromCol fromRow
            (doc.twoCellAnchor.length + 1) fam]⟩) := by
    rw [e1, (addContentTypePart_frame _ _).1]
  have h1s : (AddShape st sheet cell (some s)).2.sheets = st.sheets := by
    rw [e1, (addContentTypePart_frame _ _).2.1]
  have h1r : (AddShape st sheet cell (some s)).2.rels = st.rels := by
    rw [e1, (addContentTypePart_frame _ _).2.2.1]
  have h1f : (AddShape st sheet cell (some s)).2.defaultFont =
      st.defaultFont := by
    rw [e1, (addContentTypePart_frame _ _).2.2.2]
  have hcongr : getSheetRelationshipsTargetByID
      (AddShape st sheet cell (some s)).2 sheet rID =
      getSheetRelationshipsTargetByID st sheet rID :=
    getSheetRelationshipsTargetByID_congr st _ sheet rID h1r
  have hws1 : alistFind (AddShape st sheet cell (some s)).2.sheets sheet =
      some ws := by rw [h1s]; exact hws
  have hdoc1 : alistFind (AddShape st sheet cell (some s)).2.drawings
      (goReplaceAll (getSheetRelationshipsTargetByID st sheet rID)
        ".." "xl") =
      some (.ok ⟨doc.twoCellAnchor ++
        [builtAnchor st sheet o fromCol fromRow
          (doc.twoCellAnchor.length + 1) fam]⟩) := by
    rw [h1d]
    exact alistFind_store_self _ _ _
  have hd2 : drawingParser (AddShape st sheet cell (some s)).2
      (goReplaceAll (getSheetRelationshipsTargetByID st sheet rID)
        ".." "xl") =
      .ok (⟨doc.twoCellAnchor ++
        [builtAnchor st sheet o fromCol fromRow
          (doc.twoCellAnchor.length + 1) fam]⟩,
        (⟨doc.twoCellAnchor ++
          [builtAnchor st sheet o fromCol fromRow
            (doc.twoCellAnchor.length + 1) fam]⟩ :
              xlsxWsDr).twoCellAnchor.length + 1) := by
    unfold drawingParser
    rw [hdoc1]
  have hf1 : (AddShape st sheet cell (some s)).2.defaultFont = .ok fam := by
    rw [h1f]; exact hf
  have hb2 := addDrawingShape_ok (AddShape st sheet cell (some s)).2 sheet
    (goReplaceAll (getSheetRelationshipsTargetByID st sheet rID) ".." "xl")
    cell o fromCol fromRow
    ⟨doc.twoCellAnchor ++
      [builtAnchor st sheet o fromCol fromRow
        (doc.twoCellAnchor.length + 1) fam]⟩ fam hc hd2 hf1
  have e2 := AddShape_existing (AddShape st sheet cell (some s)).2 sheet
    cell (some s) o ws rID ho hws1 hdw
  rw [hcongr] at e2
  dsimp only at e2
  rw [hb2] at e2
  dsimp only at e2
  have h2d : (AddShape (AddShape st sheet cell (some s)).2 sheet cell
      (some s)).2.drawings =
      alistStore (AddShape st sheet cell (some s)).2.drawings
        (goReplaceAll (getSheetRelationshipsTargetByID st sheet rID)
          ".." "xl")
        (.ok ⟨doc.twoCellAnchor ++
          [builtAnchor st sheet o fromCol fromRow
            (doc.twoCellAnchor.length + 1) fam] ++
          [builtAnchor (AddShape st sheet cell (some s)).2 sheet o fromCol
            fromRow
            ((doc.twoCellAnchor ++
              [builtAnchor st sheet o fromCol fromRow
                (doc.twoCellAnchor.length + 1) fam]).length + 1) fam]⟩) := by
    rw [e2, (addContentTypePart_frame _ _).1]
  refine ⟨by rw [e1], by rw [e2], ?_⟩
  refine ⟨builtAnchor st sheet o fromCol fromRow
      (doc.twoCellAnchor.length + 1) fam,
    builtAnchor (AddShape st sheet cell (some s)).2 sheet o fromCol fromRow
      ((doc.twoCellAnchor ++
        [builtAnchor st sheet o fromCol fromRow
          (doc.twoCellAnchor.length + 1) fam]).length + 1) fam,
    ?_, ?_, ?_, ?_, ?_⟩
  · rw [h2d]
    rw [alistFind_store_self]
    simp
  · exact builtAnchor_id _ _ _ _ _ _ _
  · rw [builtAnchor_id]
    simp
  · rw [h2d, alistStore_length_mem _ _ _ (by rw [hdoc1]; rfl), h1d,
      alistStore_length_mem _ _ _ (by rw [hdoc]; rfl)]
  · intro p hp
    rw [h2d, alistFind_store_ne _ _ _ _ hp, h1d,
      alistFind_store_ne _ _ _ _ hp]

/-- C1, case of a sheet with no drawing part yet: the first call
allocates the part (registering the relationship whose target resolves
back to it), the second call reuses the part recorded on the sheet, and
the two anchors get identities 1 and 2 (no anchors pre-existed in the
fresh part).  The names `relsPath`, `drawingXML` and `target` are pinned
to the path expressions the orchestrator builds. -/
theorem addShape_twice_fresh (st : FileState) (sheet cell : String)
    (s : Shape) (ws : Worksheet) (fromCol fromRow : Int) (fam : String)
    (relsPath drawingXML target : String)
    (hrp : relsPath = "xl/worksheets/_rels/"
      ++ goTrimPfx (getSheetXMLPath st sheet) "xl/worksheets/" ++ ".rels")
    (hdx : drawingXML = "xl/drawings/drawing"
      ++ toString (countDrawings st + 1) ++ ".xml")
    (htg : target = "../drawings/drawing"
      ++ toString (countDrawings st + 1) ++ ".xml")
    (hws : alistFind st.sheets sheet = some ws)
    (hdw : ws.drawing = none)
    (hfreshD : alistFind st.drawings drawingXML = none)
    (hfreshR : alistFind st.rels relsPath = none)
    (hrepl : goReplaceAll target ".." "xl" = drawingXML)
    (hc : CellNameToCoordinates cell = .ok (fromCol, fromRow))
    (hf : st.defaultFont = .ok fam) :
    (AddShape st sheet cell (some s)).1 = none ∧
    (AddShape (AddShape st sheet cell (some s)).2 sheet cell
        (some s)).1 = none ∧
    ∃ a1 a2 : xdrCellAnchor,
      alistFind (AddShape (AddShape st sheet cell (some s)).2 sheet cell
            (some s)).2.drawings drawingXML
        = some (.ok ⟨[a1, a2]⟩) ∧
      a1.sp.cNvPr.id = 1 ∧
      a2.sp.cNvPr.id = 2 ∧
      (AddShape (AddShape st sheet cell (some s)).2 sheet cell
          (some s)).2.drawings.length = st.drawings.length + 1 ∧
      ∀ p : String, p ≠ drawingXML →
        alistFind (AddShape (AddShape st sheet cell (some s)).2 sheet cell
            (some s)).2.drawings p = alistFind st.drawings p := by
  obtain ⟨o, ho⟩ : ∃ o, parseShapeOptions (some s) = .ok o :=
    ⟨_, parseShapeOptions_some_eq s⟩
  have hR : addRels st relsPath SourceRelationshipDrawingML target "" =
      (1, { st with rels := alistStore st.rels relsPath [⟨1, target⟩] }) := by
    unfold addRels
    rw [hfreshR]
    rfl
  have e1 := AddShape_fresh st sheet cell (some s) o ws ho hws hdw
  dsimp only at e1
  rw [← hrp, ← hdx, ← htg, hR] at e1
  dsimp only at e1
  unfold addSheetDrawing at e1
  rw [show alistFind st.sheets sheet = some ws from hws] at e1
  dsimp only at e1
  unfold addSheetNameSpace at e1
  rw [alistFind_store_self] at e1
  dsimp only at e1
  have hd1 : drawingParser
      { st with
        rels := alistStore st.rels relsPath [⟨1, target⟩],
        sheets := alistStore
          (alistStore st.sheets sheet { ws with drawing := some 1 }) sheet
          { ws with drawing := some 1, nsSet := true } }
      drawingXML = .ok (⟨[]⟩, (⟨[]⟩ : xlsxWsDr).twoCellAnchor.length + 1) := by
    unfold drawingParser
    rw [show alistFind st.drawings drawingXML = none from hfreshD]
    rfl
  have hb1 := addDrawingShape_ok
    { st with
      rels := alistStore st.rels relsPath [⟨1, target⟩],
      sheets := alistStore
        (alistStore st.sheets sheet { ws with drawing := some 1 }) sheet
        { ws with drawing := some 1, nsSet := true } }
    sheet drawingXML cell o fromCol fromRow ⟨[]⟩ fam hc hd1 hf
  rw [hb1] at e1
  dsimp only at e1
  simp only [List.nil_append, List.length_nil, Nat.zero_add] at e1
  have h1 : (AddShape st sheet cell (some s)).1 = none := by rw [e1]
  have h1de : (AddShape st sheet cell (some s)).2.drawings =
      alistStore st.drawings drawingXML
        (.ok ⟨[builtAnchor
          { st with
            rels := alistStore st.rels relsPath [⟨1, target⟩],
            sheets := alistStore
              (alistStore st.sheets sheet { ws with drawing := some 1 })
              sheet { ws with drawing := some 1, nsSet := true } }
          sheet o fromCol fromRow 1 fam]⟩) := by
    rw [e1]; exact (addContentTypePart_frame _ _).1
  obtain ⟨a1, h1d, ha1⟩ : ∃ a1 : xdrCellAnchor,
      (AddShape st sheet cell (some s)).2.drawings =
        alistStore st.drawings drawingXML (.ok ⟨[a1]⟩) ∧
      a1.sp.cNvPr.id = 1 :=
    ⟨_, h1de, builtAnchor_id _ _ _ _ _ _ _⟩
  have h1s : (AddShape st sheet cell (some s)).2.sheets =
      alistStore (alistStore st.sheets sheet { ws with drawing := some 1 })
        sheet { ws with drawing := some 1, nsSet := true } := by
    rw [e1]; exact (addContentTypePart_frame _ _).2.1
  have h1r : (AddShape st sheet cell (some s)).2.rels =
      alistStore st.rels relsPath [⟨1, target⟩] := by
    rw [e1]; exact (addContentTypePart_frame _ _).2.2.1
  have h1f : (AddShape st sheet cell (some s)).2.defaultFont = .ok fam := by
    rw [e1, (addContentTypePart_frame _ _).2.2.2]; exact hf
  have hws1 : alistFind (AddShape st sheet cell (some s)).2.sheets sheet =
      some { ws with drawing := some 1, nsSet := true } := by
    rw [h1s]; exact alistFind_store_self _ _ _
  have e2 := AddShape_existing (AddShape st sheet cell (some s)).2 sheet
    cell (some s) o { ws with drawing := some 1, nsSet := true } 1 ho hws1
    rfl
  have htg1 : getSheetRelationshipsTargetByID
      (AddShape st sheet cell (some s)).2 sheet 1 = target := by
    unfold getSheetRelationshipsTargetByID
    dsimp only
    have hpath : "xl/worksheets/_rels/"
        ++ goTrimPfx (getSheetXMLPath (AddShape st sheet cell (some s)).2
          sheet) "xl/worksheets/"
        ++ ".rels" = relsPath := by
      rw [hrp]; rfl
    rw [hpath, h1r, alistFind_store_self]
    simp [List.find?]
  dsimp only at e2
  rw [htg1, hrepl] at e2
  have hdoc1 : alistFind (AddShape st sheet cell (some s)).2.drawings
      drawingXML = some (.ok ⟨[a1]⟩) := by
    rw [h1d]; exact alistFind_store_self _ _ _
  have hd2 : drawingParser (AddShape st sheet cell (some s)).2 drawingXML =
      .ok (⟨[a1]⟩, (⟨[a1]⟩ : xlsxWsDr).twoCellAnchor.length + 1) := by
    unfold drawingParser
    rw [hdoc1]
  have hb2 := addDrawingShape_ok (AddShape st sheet cell (some s)).2 sheet
    drawingXML cell o fromCol fromRow ⟨[a1]⟩ fam hc hd2 h1f
  rw [hb2] at e2
  dsimp only at e2
  obtain ⟨a2, ha2, h2d⟩ : ∃ a2 : xdrCellAnchor,
      a2.sp.cNvPr.id = 2 ∧
      (AddShape (AddShape st sheet cell (some s)).2 sheet cell
          (some s)).2.drawings =
        alistStore (AddShape st sheet cell (some s)).2.drawings drawingXML
          (.ok ⟨[a1, a2]⟩) := by
    refine ⟨builtAnchor (AddShape st sheet cell (some s)).2 sheet o fromCol
      fromRow ((⟨[a1]⟩ : xlsxWsDr).twoCellAnchor.length + 1) fam, ?_, ?_⟩
    · rw [builtAnchor_id]
      rfl
    · rw [e2]
      exact (addContentTypePart_frame _ _).1
  refine ⟨h1, by rw [e2], a1, a2, ?_, ha1, ha2, ?_, ?_⟩
  · rw [h2d, alistFind_store_self]
  · rw [h2d, alistStore_length_mem _ _ _ (by rw [hdoc1]; rfl), h1d,
      alistStore_length_new _ _ _ hfreshD]
  · intro p hp
    rw [h2d, alistFind_store_ne _ _ _ _ hp, h1d,
      alistFind_store_ne _ _ _ _ hp]

/-- C1.  Calling `AddShape` twice against the same sheet (with any
valid description and cell) appends both anchors into one and the same
drawing part, the second call reusing the part referenced by the
sheet's drawing relationship, and the two shapes receive identities
`N` and `N+1` with `N` one greater than the number of anchors already
present in that part before the first call.  First conjunct: the sheet
already references a part with `k` anchors (`N = k+1`; no part is
created and no other part is touched).  Second conjunct: the sheet has
no part yet, so the first call creates one (`N = 1`; exactly one part
is added and no other part is touched). -/
theorem addShape_twice_one_part :
    (∀ (st : FileState) (sheet cell : String) (s : Shape) (ws : Worksheet)
        (rID : Nat) (doc : xlsxWsDr) (fromCol fromRow : Int) (fam : String),
      alistFind st.sheets sheet = some ws →
      ws.drawing = some rID →
      alistFind st.drawings
          (goReplaceAll (getSheetRelationshipsTargetByID st sheet rID)
            ".." "xl") = some (.ok doc) →
      CellNameToCoordinates cell = .ok (fromCol, fromRow) →
      st.defaultFont = .ok fam →
      (AddShape st sheet cell (some s)).1 = none ∧
      (AddShape (AddShape st sheet cell (some s)).2 sheet cell
          (some s)).1 = none ∧
      ∃ a1 a2 : xdrCellAnchor,
        alistFind (AddShape (AddShape st sheet cell (some s)).2 sheet cell
              (some s)).2.drawings
            (goReplaceAll (getSheetRelationshipsTargetByID st sheet rID)
              ".." "xl")
          = some (.ok ⟨doc.twoCellAnchor ++ [a1, a2]⟩) ∧
        a1.sp.cNvPr.id = doc.twoCellAnchor.length + 1 ∧
        a2.sp.cNvPr.id = doc.twoCellAnchor.length + 2 ∧
        (AddShape (AddShape st sheet cell (some s)).2 sheet cell
            (some s)).2.drawings.length = st.drawings.length ∧
        ∀ p : String,
          p ≠ goReplaceAll (getSheetRelationshipsTargetByID st sheet rID)
              ".." "xl" →
          alistFind (AddShape (AddShape st sheet cell (some s)).2 sheet
              cell (some s)).2.drawings p = alistFind st.drawings p) ∧
    (∀ (st : FileState) (sheet cell : String) (s : Shape) (ws : Worksheet)
        (fromCol fromRow : Int) (fam : String)
        (relsPath drawingXML target : String),
      relsPath = "xl/worksheets/_rels/"
        ++ goTrimPfx (getSheetXMLPath st sheet) "xl/worksheets/"
        ++ ".rels" →
      drawingXML = "xl/drawings/drawing" ++ toString (countDrawings st + 1)
        ++ ".xml" →
      target = "../drawings/drawing" ++ toString (countDrawings st + 1)
        ++ ".xml" →
      alistFind st.sheets sheet = some ws →
      ws.drawing = none →
      alistFind st.drawings drawingXML = none →
      alistFind st.rels relsPath = none →
      goReplaceAll target ".." "xl" = drawingXML →
      CellNameToCoordinates cell = .ok (fromCol, fromRow) →
      st.defaultFont = .ok fam →
      (AddShape st sheet cell (some s)).1 = none ∧
      (AddShape (AddShape st sheet cell (some s)).2 sheet cell
          (some s)).1 = none ∧
      ∃ a1 a2 : xdrCellAnchor,
        alistFind (AddShape (AddShape st sheet cell (some s)).2 sheet cell
              (some s)).2.drawings drawingXML
          = some (.ok ⟨[a1, a2]⟩) ∧
        a1.sp.cNvPr.id = 1 ∧
        a2.sp.cNvPr.id = 2 ∧
        (AddShape (AddShape st sheet cell (some s)).2 sheet cell
            (some s)).2.drawings.length = st.drawings.length + 1 ∧
        ∀ p : String, p ≠ drawingXML →
          alistFind (AddShape (AddShape st sheet cell (some s)).2 sheet
              cell (some s)).2.drawings p = alistFind st.drawings p) := by
  constructor
  · intro st sheet cell s ws rID doc fromCol fromRow fam hws hdw hdoc hc hf
    exact addShape_twice_existing st sheet cell s ws rID doc fromCol
      fromRow fam hws hdw hdoc hc hf
  · intro st sheet cell s ws fromCol fromRow fam relsPath drawingXML target
      hrp hdx htg hws hdw hfreshD hfreshR hrepl hc hf
    exact addShape_twice_fresh st sheet cell s ws fromCol fromRow fam
      relsPath drawingXML target hrp hdx htg hws hdw hfreshD hfreshR hrepl
      hc hf

/-- C1, witness: `sampleStateB` (one sheet referencing the empty
drawing part 1), cell `G6`, the all-defaults sample description: both
calls succeed, the part holds exactly the two new anchors with
identities 1 and 2, and it is still the only part. -/
theorem addShape_twice_one_part_witness :
    (AddShape sampleStateB "Sheet1" "G6" (some sampleShape)).1 = none ∧
    (AddShape (AddShape sampleStateB "Sheet1" "G6" (some sampleShape)).2
        "Sheet1" "G6" (some sampleShape)).1 = none ∧
    ∃ a1 a2 : xdrCellAnchor,
      alistFind (AddShape
            (AddShape sampleStateB "Sheet1" "G6" (some sampleShape)).2
            "Sheet1" "G6" (some sampleShape)).2.drawings
          (goReplaceAll
            (getSheetRelationshipsTargetByID sampleStateB "Sheet1" 1)
            ".." "xl")
        = some (.ok ⟨[a1, a2]⟩) ∧
      a1.sp.cNvPr.id = 1 ∧
      a2.sp.cNvPr.id = 2 ∧
      (AddShape (AddShape sampleStateB "Sheet1" "G6" (some sampleShape)).2
          "Sheet1" "G6" (some sampleShape)).2.drawings.length = 1 ∧
      ∀ p : String,
        p ≠ goReplaceAll
            (getSheetRelationshipsTargetByID sampleStateB "Sheet1" 1)
            ".." "xl" →
        alistFind (AddShape
            (AddShape sampleStateB "Sheet1" "G6" (some sampleShape)).2
            "Sheet1" "G6" (some sampleShape)).2.drawings p =
          alistFind sampleStateB.drawings p :=
  addShape_twice_one_part.1 sampleStateB "Sheet1" "G6" sampleShape
    ⟨some 1, true⟩ 1 ⟨[]⟩ 7 6 "Calibri" (by decide) rfl (by decide)
    (by decide) rfl

/-- C3, counterexample.  The claim says no failure path of
`AddShape`/`addDrawingShape` mutates the sheet descriptor or the
relationship registry.  But when the sheet has no drawing part yet, the
orchestrator registers the relationship, records it on the sheet
descriptor and declares the namespace *before* delegating to the
builder: with the malformed cell `"!"` the call fails, yet the
relationship registry and the sheet descriptor have changed. -/
theorem addShape_failure_mutates_counterexample :
    (AddShape sampleStateA "Sheet1" "!" (some sampleShape)).1 =
      some Err.invalidCellRef ∧
    (AddShape sampleStateA "Sheet1" "!" (some sampleShape)).2.rels ≠
      sampleStateA.rels ∧
    (AddShape sampleStateA "Sheet1" "!" (some sampleShape)).2.sheets ≠
      sampleStateA.sheets := by
  decide

/-- C3, amended.  On every failure path the drawing-document store and
the content-type registry are left exactly as they were (so the commit —
append plus store — happens only on success, as the last state change of
the builder), and a failing `addDrawingShape` changes nothing at all;
however, when the sheet lacked a drawing part, the relationship
registration and sheet-descriptor update performed by `AddShape` before
delegation persist even when the builder then fails. -/
theorem addShape_failure_frame :
    (∀ (st : FileState) (sheet cell : String) (opts : Option Shape),
      (AddShape st sheet cell opts).1.isSome →
      (AddShape st sheet cell opts).2.drawings = st.drawings ∧
      (AddShape st sheet cell opts).2.contentTypes = st.contentTypes) ∧
    (∀ (st : FileState) (sheet xml cell : String) (o : Shape),
      (addDrawingShape st sheet xml cell o).1.isSome →
      (addDrawingShape st sheet xml cell o).2 = st) := by
  constructor
  · intro st sheet cell opts h
    cases hpo : parseShapeOptions opts with
    | error e =>
      simp only [AddShape, hpo]
      exact ⟨trivial, trivial⟩
    | ok o =>
      cases how : workSheetReader st sheet with
      | error e =>
        simp only [AddShape, hpo, how]
        exact ⟨trivial, trivial⟩
      | ok ws =>
        have hws := (workSheetReader_ok_iff st sheet ws).mp how
        cases hdw : ws.drawing with
        | some rID =>
          rw [AddShape_existing st sheet cell opts o ws rID hpo hws hdw]
            at h ⊢
          dsimp only at h ⊢
          exact addShape_commit_frame st st sheet _ cell o _ rfl rfl h
        | none =>
          rw [AddShape_fresh st sheet cell opts o ws hpo hws hdw] at h ⊢
          dsimp only at h ⊢
          refine addShape_commit_frame st _ sheet _ cell o _ ?_ ?_ h
          · rw [(addSheetNameSpace_frame _ _ _).1,
              (addSheetDrawing_frame _ _ _).1]
            rfl
          · rw [(addSheetNameSpace_frame _ _ _).2.2.1,
              (addSheetDrawing_frame _ _ _).2.2.1]
            rfl
  · intro st sheet xml cell o h
    exact addDrawingShape_err_state st sheet xml cell o h

/-- C3, amended: witness at the failing fresh-sheet call. -/
theorem addShape_failure_frame_witness :
    (AddShape sampleStateA "Sheet1" "!" (some sampleShape)).2.drawings =
      sampleStateA.drawings ∧
    (AddShape sampleStateA "Sheet1" "!" (some sampleShape)).2.contentTypes =
      sampleStateA.contentTypes :=
  addShape_failure_frame.1 sampleStateA "Sheet1" "!" (some sampleShape)
    (by decide)

end Excelize
